import Mathlib

/-!
Verification development for the a314 bridge daemon
(src/Software/a314d/a314d.cc).

The daemon multiplexes logical byte streams between local clients and a
remote peer over two 256-byte ring buffers in shared SRAM.  The
definitions below are a shallow embedding of the C++ source: pure
fragments become Lean functions, the mutable daemon state (channel list,
send queue, service registry, ring indices) is passed explicitly, and
machine integers are modelled as `Nat` with `% 256` where the source
stores into `uint8_t`.  Channels and clients are identified by their
stable identifiers (`channel_id`, the client fd) instead of raw
pointers; in every reachable state of the daemon these identifiers are
unique (`handle_pkt_connect` terminates the process on a duplicate
`channel_id`), so first-match lookup by identifier coincides with the
pointer dereference of the source.
-/

namespace A314

/-- Packet types communicated across the physical channels
(a314d.cc lines 80-84). -/
def PKT_CONNECT : Nat := 4

def PKT_CONNECT_RESPONSE : Nat := 5

def PKT_DATA : Nat := 6

def PKT_EOS : Nat := 7

def PKT_RESET : Nat := 8

/-- Valid responses for PKT_CONNECT_RESPONSE (lines 87-88). -/
def CONNECT_OK : Nat := 0

def CONNECT_UNKNOWN_SERVICE : Nat := 3

/-- Message types between the daemon and a local client (lines 91-103). -/
def MSG_REGISTER_REQ : Nat := 1

def MSG_REGISTER_RES : Nat := 2

def MSG_CONNECT : Nat := 9

def MSG_CONNECT_RESPONSE : Nat := 10

def MSG_DATA : Nat := 11

def MSG_EOS : Nat := 12

def MSG_RESET : Nat := 13

def MSG_SUCCESS : Nat := 1

def MSG_FAIL : Nat := 0

/-- Event bit communicated via IRQ from the peer (line 67). -/
def R_EVENT_BASE_ADDRESS : Nat := 4

/-- A packet queued on a logical channel (struct PacketBuffer,
lines 162-166): a type tag and the payload bytes. -/
structure PacketBuffer where
  ptype : Nat
  data : List Nat
deriving Repr, DecidableEq

/-- A logical channel (struct LogicalChannel, lines 183-194).  The
association is the owning client's identifier (the source stores a
`ClientConnection*`). -/
structure LogicalChannel where
  channel_id : Nat
  association : Option Nat
  stream_id : Nat
  got_eos_from_ami : Bool
  got_eos_from_client : Bool
  packet_queue : List PacketBuffer
deriving Repr, DecidableEq

/-- A message sent from the daemon to a client via create_and_send_msg
(lines 525-574): destination client, message type, stream id, payload. -/
structure Msg where
  cc : Nat
  mtype : Nat
  stream_id : Nat
  payload : List Nat
deriving Repr, DecidableEq

/-- Linear scan of the channel list for a given channel_id, as done by
the loops in handle_pkt_data / handle_pkt_eos / handle_pkt_reset /
remove_channel_if_not_associated_and_empty_pq. -/
def findChannel : List LogicalChannel → Nat → Option LogicalChannel
  | [], _ => none
  | ch :: rest, cid =>
    if ch.channel_id = cid then some ch else findChannel rest cid

/-- Update the first channel with the given id in place; models a write
through the `LogicalChannel*` obtained by the linear scan. -/
def updateChannel : List LogicalChannel → Nat → (LogicalChannel → LogicalChannel) → List LogicalChannel
  | [], _, _ => []
  | ch :: rest, cid, f =>
    if ch.channel_id = cid then f ch :: rest
    else ch :: updateChannel rest cid f

/-- The effect of `ch->packet_queue.pop_front()` on the channel list. -/
def popFrontPacket (chans : List LogicalChannel) (cid : Nat) : List LogicalChannel :=
  updateChannel chans cid (fun ch => { ch with packet_queue := ch.packet_queue.tail })

/-- Total number of packets queued across all channels (used as the
termination measure of the flush loop). -/
def totalPackets (chans : List LogicalChannel) : Nat :=
  (chans.map (fun ch => ch.packet_queue.length)).sum

/-- remove_channel_if_not_associated_and_empty_pq (lines 1002-1014):
erases the (first) record with the given channel_id from the channel
list exactly when it has no association and an empty packet queue. -/
def remove_channel_if_not_associated_and_empty_pq : List LogicalChannel → Nat → List LogicalChannel
  | [], _ => []
  | ch :: rest, cid =>
    if ch.channel_id = cid then
      if ch.association = none ∧ ch.packet_queue = [] then rest else ch :: rest
    else ch :: remove_channel_if_not_associated_and_empty_pq rest cid

/-- The bytes flush_send_queue serializes for one packet
(lines 1090-1094): length byte, type byte, channel id byte, then the
payload.  `send_buf` is `uint8_t`, so the stores truncate mod 256. -/
def frame (cid : Nat) (pb : PacketBuffer) : List Nat :=
  (pb.data.length % 256) :: (pb.ptype % 256) :: (cid % 256) :: pb.data

/-- create_and_enqueue_packet (lines 800-812).  The `type` and `length`
parameters are declared `uint8_t` in the source, so the arguments are
reduced mod 256 at the call boundary; `pb.data.resize(length)` followed
by `memcpy(&pb.data[0], data, length)` stores the first `length` bytes
of `data`.  If the channel's packet queue was empty, the channel is
pushed onto the send queue first. -/
def create_and_enqueue_packet (sq : List Nat) (chans : List LogicalChannel)
    (cid : Nat) (ptype : Nat) (data : List Nat) (length : Nat) :
    List Nat × List LogicalChannel :=
  match findChannel chans cid with
  | none => (sq, chans)
  | some ch =>
    let pb : PacketBuffer := ⟨ptype % 256, data.take (length % 256)⟩
    let sq' := if ch.packet_queue = [] then sq ++ [cid] else sq
    (sq', updateChannel chans cid (fun c => { c with packet_queue := c.packet_queue ++ [pb] }))

/-- clear_packet_queue (lines 791-798): if the channel's packet queue is
non-empty, clear it and erase the channel from the send queue. -/
def clear_packet_queue (sq : List Nat) (chans : List LogicalChannel) (cid : Nat) :
    List Nat × List LogicalChannel :=
  match findChannel chans cid with
  | none => (sq, chans)
  | some ch =>
    if ch.packet_queue = [] then (sq, chans)
    else (sq.erase cid, updateChannel chans cid (fun c => { c with packet_queue := [] }))

/-- The while loop of flush_send_queue (lines 1079-1106).  Arguments:
remaining fuel (the loop pops one packet per iteration, so the total
packet count bounds the iterations), the send queue, the channel list,
the remaining room `left`, and the bytes serialized so far.  Returns
the serialized bytes, the final send queue and the final channel
list. -/
def flushLoop : Nat → List Nat → List LogicalChannel → Nat → List Nat →
    List Nat × List Nat × List LogicalChannel
  | 0, sq, chans, _, out => (out, sq, chans)
  | _ + 1, [], chans, _, out => (out, [], chans)
  | fuel + 1, cid :: rest, chans, left, out =>
    match findChannel chans cid with
    | none => (out, cid :: rest, chans)
    | some ch =>
      match ch.packet_queue with
      | [] => (out, cid :: rest, chans)
      | pb :: tl =>
        if left < 3 + pb.data.length then (out, cid :: rest, chans)
        else
          flushLoop fuel
            (if tl = [] then rest else rest ++ [cid])
            (if tl = []
             then remove_channel_if_not_associated_and_empty_pq (popFrontPacket chans cid) cid
             else popFrontPacket chans cid)
            (left - (3 + pb.data.length))
            (out ++ frame cid pb)

/-- Effective length of a ring: `(tail - head) & 0xFF` computed on the
`int` copies of the `uint8_t` status bytes (lines 1072-1074). -/
def ringLen (tail head : Nat) : Nat :=
  (tail + 256 - head % 256) % 256

/-- Final R2A_TAIL after writing `pos` bytes at the old `tail`
(lines 1112-1123): if the write would run past offset 256 it is split at
the wrap, `tail` is reset to 0 and advanced by the remainder; otherwise
`tail = (tail + to_write) & 255`. -/
def flush_tail_after_write (tail pos : Nat) : Nat :=
  if 256 - tail < pos then (0 + (pos - (256 - tail))) % 256
  else (tail + pos) % 256

/-- Result of flush_send_queue: the serialized bytes, the new send
queue, the new channel list, the new R2A_TAIL status byte, and the
boolean return value (whether anything was written). -/
structure FlushResult where
  out : List Nat
  send_queue : List Nat
  channels : List LogicalChannel
  r2a_tail : Nat
  wrote : Bool
deriving Repr, DecidableEq

/-- flush_send_queue (lines 1070-1128): serialize pending packets from
the head of the send queue into the R2A ring while they fit in
`left = 255 - len` bytes, then advance R2A_TAIL by the number of bytes
written. -/
def flush_send_queue (tail head : Nat) (sq : List Nat) (chans : List LogicalChannel) :
    FlushResult :=
  let len := ringLen tail head
  let left := 255 - len
  let r := flushLoop (totalPackets chans + 1) sq chans left []
  let pos := r.1.length
  if pos = 0 then ⟨r.1, r.2.1, r.2.2, tail, false⟩
  else ⟨r.1, r.2.1, r.2.2, flush_tail_after_write tail pos, true⟩

/-- Whether the (first) channel with the given id exists and has a
non-empty packet queue. -/
def channelHasPackets (chans : List LogicalChannel) (cid : Nat) : Bool :=
  match findChannel chans cid with
  | some ch => !ch.packet_queue.isEmpty
  | none => false

/-- The send-queue invariant: no duplicate channel ids, and every queued
channel exists with a non-empty packet queue. -/
def SendQueueInv (sq : List Nat) (chans : List LogicalChannel) : Prop :=
  sq.Nodup ∧ ∀ cid ∈ sq, channelHasPackets chans cid = true

/-- The erasure loop of close_all_logical_channels (lines 1176-1188):
for every channel, if it is associated, send MSG_RESET on its stream and
dissociate; then erase the channel.  Returns the surviving channel list
(always empty, since every record is erased) and the emitted messages. -/
def close_all_loop : List LogicalChannel → List LogicalChannel × List Msg
  | [] => ([], [])
  | ch :: rest =>
    let msgs := match ch.association with
      | some c => [⟨c, MSG_RESET, ch.stream_id, []⟩]
      | none => []
    let r := close_all_loop rest
    (r.1, msgs ++ r.2)

/-- close_all_logical_channels (lines 1172-1189): clear the send queue,
then run the erasure loop over the channel list.  Returns the new send
queue, the new channel list and the emitted messages. -/
def close_all_logical_channels (chans : List LogicalChannel) :
    List Nat × List LogicalChannel × List Msg :=
  let r := close_all_loop chans
  ([], r.1, r.2)

/-- read_base_address (lines 1130-1150): read the 20-bit base address
from CMEM nibbles 0..4 (modelled as the oracle value `ba1`); if its low
bit is 1 read it again (`ba2`) and accept when both reads agree, caching
the value with the low bit cleared (`ba1 & ~1 = ba1 - 1` for odd `ba1`).
Returns the new (have_base_address, base_address) pair. -/
def read_base_address (base : Nat) (ba1 ba2 : Nat) : Bool × Nat :=
  if ba1 % 2 = 1 then
    if ba1 = ba2 then (true, ba1 - 1) else (false, base)
  else (false, base)

/-- Result of the event-acknowledgement and rediscovery portion of
handle_a314_irq. -/
structure IrqStep where
  rediscovered : Bool
  have_base_address : Bool
  base_address : Nat
  send_queue : List Nat
  channels : List LogicalChannel
  msgs : List Msg
deriving Repr, DecidableEq

/-- The event-acknowledgement and base-address rediscovery portion of
handle_a314_irq (lines 1191-1207).  `events` is the value returned by
the acknowledging read of CMEM R_EVENTS (spi_ack_irq); `ba1` and `ba2`
are the two candidate 20-bit CMEM reads performed if rediscovery runs.
If `events == 0` the handler returns at once.  Otherwise, if the
R_EVENT_BASE_ADDRESS bit is set or no base address is cached, all
logical channels are closed and read_base_address runs.  The subsequent
status read / receive / flush steps are not part of this model. -/
def handle_a314_irq_events (events : Nat) (have_base : Bool) (base : Nat)
    (sq : List Nat) (chans : List LogicalChannel) (ba1 ba2 : Nat) : IrqStep :=
  if events = 0 then ⟨false, have_base, base, sq, chans, []⟩
  else if events &&& R_EVENT_BASE_ADDRESS ≠ 0 ∨ have_base = false then
    let closed := close_all_logical_channels chans
    let rb := read_base_address base ba1 ba2
    ⟨true, rb.1, rb.2, closed.1, closed.2.1, closed.2.2⟩
  else ⟨false, have_base, base, sq, chans, []⟩

/-- handle_pkt_eos (lines 963-981): scan for the channel with the given
id; if it is associated and has not yet received EOS from the peer, set
got_eos_from_ami, send MSG_EOS to the client, and, if EOS was already
received from the client, dissociate (association cleared, stream id
zeroed; the source also removes the channel from the client's
association list, which this channel-centric state does not track). -/
def handle_pkt_eos : List LogicalChannel → Nat → List LogicalChannel × List Msg
  | [], _ => ([], [])
  | ch :: rest, cid =>
    if ch.channel_id = cid then
      match ch.association with
      | some c =>
        if ch.got_eos_from_ami = false then
          let ch' := if ch.got_eos_from_client
            then { ch with got_eos_from_ami := true, association := none, stream_id := 0 }
            else { ch with got_eos_from_ami := true }
          (ch' :: rest, [⟨c, MSG_EOS, ch.stream_id, []⟩])
        else (ch :: rest, [])
      | none => (ch :: rest, [])
    else
      let r := handle_pkt_eos rest cid
      (ch :: r.1, r.2)

/-- handle_pkt_data (lines 949-961): forward the payload as MSG_DATA to
the associated client, unless the channel is missing, unassociated, or
got_eos_from_ami is already set.  The channel list is unchanged.
Returns the emitted messages. -/
def handle_pkt_data (chans : List LogicalChannel) (cid : Nat) (data : List Nat) : List Msg :=
  match findChannel chans cid with
  | none => []
  | some ch =>
    match ch.association with
    | none => []
    | some c =>
      if ch.got_eos_from_ami = false then [⟨c, MSG_DATA, ch.stream_id, data⟩] else []

/-- Linux errno values used by the write paths. -/
def EAGAIN : Nat := 11

/-- On Linux EWOULDBLOCK is the same value as EAGAIN. -/
def EWOULDBLOCK : Nat := 11

def ECONNRESET : Nat := 104

/-- What the synchronous send path does when `write` fails. -/
inductive SendAction where
  /-- EAGAIN/EWOULDBLOCK: message queued for the EPOLLOUT drain. -/
  | queued
  /-- ECONNRESET: return without closing; the connection stays in the
  connection list (cleanup is deferred to a read EOF or EPOLLERR). -/
  | dropped
  /-- any other errno: exit(-1). -/
  | fatal_exit
deriving Repr, DecidableEq

/-- What the EPOLLOUT drain path does when `write` fails. -/
inductive DrainAction where
  /-- EAGAIN/EWOULDBLOCK: stop draining, wait for the next EPOLLOUT. -/
  | yield
  /-- ECONNRESET: close_and_remove_connection. -/
  | close_connection
  /-- any other errno: exit(-1). -/
  | fatal_exit
deriving Repr, DecidableEq

/-- The errno dispatch of the write loop in create_and_send_msg
(lines 548-566). -/
def create_and_send_msg_on_error (e : Nat) : SendAction :=
  if e = EAGAIN ∨ e = EWOULDBLOCK then SendAction.queued
  else if e = ECONNRESET then SendAction.dropped
  else SendAction.fatal_exit

/-- The errno dispatch of the EPOLLOUT drain loop in
handle_client_connection_event (lines 1299-1313). -/
def handle_epollout_write_error (e : Nat) : DrainAction :=
  if e = EAGAIN ∨ e = EWOULDBLOCK then DrainAction.yield
  else if e = ECONNRESET then DrainAction.close_connection
  else DrainAction.fatal_exit

/-- The socket parameters established by init_server_socket
(lines 433-457). -/
structure ServerSocketSetup where
  family : Nat
  socktype : Nat
  addr : Nat
  port : Nat
  backlog : Nat
deriving Repr, DecidableEq

def AF_INET : Nat := 2

def SOCK_STREAM : Nat := 1

def INADDR_ANY : Nat := 0

/-- init_server_socket (lines 433-457): socket(AF_INET, SOCK_STREAM),
sin_addr = INADDR_ANY, sin_port = htons(7110), listen backlog 16. -/
def init_server_socket_setup : ServerSocketSetup :=
  { family := AF_INET, socktype := SOCK_STREAM, addr := INADDR_ANY,
    port := 7110, backlog := 16 }

/-- A registry entry (struct RegisteredService, lines 156-160): service
name and owning client identifier. -/
structure RegisteredService where
  name : String
  cc : Nat
deriving Repr, DecidableEq

/-- The per-client fields used by the connect path (struct
ClientConnection, lines 168-181): the fd (used as identifier) and the
next stream id handed out on a remote-initiated association. -/
structure ClientConnection where
  id : Nat
  next_stream_id : Nat
deriving Repr, DecidableEq

def serviceNames (l : List RegisteredService) : List String :=
  l.map (fun s => s.name)

/-- The payload bytes of a service name (the source passes the raw
payload bytes through). -/
def strBytes (s : String) : List Nat :=
  s.toList.map (fun c => c.toNat)

/-- handle_msg_register_req (lines 576-599): scan the registry for the
name; if absent, append (name, client) and reply MSG_REGISTER_RES with
MSG_SUCCESS, else reply with MSG_FAIL.  Returns the new registry and
the reply message. -/
def handle_msg_register_req (services : List RegisteredService) (cc : Nat)
    (service_name : String) : List RegisteredService × List Msg :=
  match services.find? (fun s => s.name == service_name) with
  | some _ => (services, [⟨cc, MSG_REGISTER_RES, 0, [MSG_FAIL]⟩])
  | none =>
    (services ++ [⟨service_name, cc⟩],
     [⟨cc, MSG_REGISTER_RES, 0, [MSG_SUCCESS]⟩])

/-- Update the first client record with the given id. -/
def updateConnection : List ClientConnection → Nat → (ClientConnection → ClientConnection) → List ClientConnection
  | [], _, _ => []
  | c :: rest, id, f =>
    if c.id = id then f c :: rest
    else c :: updateConnection rest id f

/-- The daemon state touched by handle_pkt_connect. -/
structure ConnectState where
  channels : List LogicalChannel
  send_queue : List Nat
  services : List RegisteredService
  connections : List ClientConnection
  on_demand : List String
  next_fd : Nat
deriving Repr, DecidableEq

/-- handle_pkt_connect (lines 814-947).  `none` models exit(-1) (a
CONNECT for an already existing channel, and the model's guard for a
registry entry whose owning client record is missing, which the source
dereferences through an always-valid pointer).  Otherwise a fresh
channel record is appended; if a registered service matches the name,
the channel is associated with its owner, the owner's next_stream_id is
advanced by 2, and MSG_CONNECT is sent; else if an on-demand entry
matches, a child is spawned (modelled as allocating the fresh client
identifier `next_fd` with next_stream_id 1), the service is
auto-registered for it, and the channel is associated likewise; else
PKT_CONNECT_RESPONSE(CONNECT_UNKNOWN_SERVICE) is enqueued back to the
peer. -/
def handle_pkt_connect (st : ConnectState) (channel_id : Nat) (service_name : String) :
    Option (ConnectState × List Msg) :=
  if (findChannel st.channels channel_id).isSome then none
  else
    let ch0 : LogicalChannel :=
      ⟨channel_id, none, 0, false, false, []⟩
    let chans0 := st.channels ++ [ch0]
    match st.services.find? (fun s => s.name == service_name) with
    | some srv =>
      match st.connections.find? (fun c => c.id = srv.cc) with
      | none => none
      | some cc =>
        let sid := cc.next_stream_id
        some
          ({ st with
              channels := updateChannel chans0 channel_id
                (fun c => { c with association := some srv.cc, stream_id := sid }),
              connections := updateConnection st.connections srv.cc
                (fun c => { c with next_stream_id := c.next_stream_id + 2 }) },
           [⟨srv.cc, MSG_CONNECT, sid, strBytes service_name⟩])
    | none =>
      if st.on_demand.contains service_name then
        let ncc : ClientConnection := ⟨st.next_fd, 1⟩
        some
          ({ st with
              channels := updateChannel chans0 channel_id
                (fun c => { c with association := some ncc.id, stream_id := 1 }),
              connections := st.connections ++ [⟨ncc.id, 3⟩],
              services := st.services ++ [⟨service_name, ncc.id⟩],
              next_fd := st.next_fd + 1 },
           [⟨ncc.id, MSG_CONNECT, 1, strBytes service_name⟩])
      else
        let r := create_and_enqueue_packet st.send_queue chans0 channel_id
          PKT_CONNECT_RESPONSE [CONNECT_UNKNOWN_SERVICE] 1
        some ({ st with channels := r.2, send_queue := r.1 }, [])

/-- get_associated_channel_by_stream_id (lines 640-648): the source
iterates the client's association list; under the association coherence
of reachable states this equals scanning the channel list for a channel
associated to this client with the given stream id. -/
def get_associated_channel_by_stream_id (chans : List LogicalChannel)
    (cc : Nat) (stream_id : Nat) : Option LogicalChannel :=
  chans.find? (fun ch => ch.association == some cc && ch.stream_id == stream_id)

/-- handle_msg_data (lines 667-674): locate the associated channel by
the header's stream id and enqueue the payload as PKT_DATA.  The length
argument passed to create_and_enqueue_packet is the header's 32-bit
length field, truncated by that function's uint8_t parameter. -/
def handle_msg_data (sq : List Nat) (chans : List LogicalChannel)
    (cc : Nat) (header_stream_id : Nat) (header_length : Nat) (payload : List Nat) :
    List Nat × List LogicalChannel :=
  match get_associated_channel_by_stream_id chans cc header_stream_id with
  | none => (sq, chans)
  | some ch => create_and_enqueue_packet sq chans ch.channel_id PKT_DATA payload header_length

/-! Auxiliary lemmas about channel lookup and update. -/

lemma findChannel_updateChannel_self (chans : List LogicalChannel) (cid : Nat)
    (f : LogicalChannel → LogicalChannel) (hid : ∀ c, (f c).channel_id = c.channel_id) :
    findChannel (updateChannel chans cid f) cid = (findChannel chans cid).map f := by
  induction chans with
  | nil => rfl
  | cons ch rest ih =>
    by_cases h : ch.channel_id = cid
    · simp [updateChannel, findChannel, h, hid]
    · simp [updateChannel, findChannel, h, ih]

lemma findChannel_updateChannel_ne (chans : List LogicalChannel) (cid cid' : Nat)
    (f : LogicalChannel → LogicalChannel) (hid : ∀ c, (f c).channel_id = c.channel_id)
    (hne : cid' ≠ cid) :
    findChannel (updateChannel chans cid f) cid' = findChannel chans cid' := by
  induction chans with
  | nil => rfl
  | cons ch rest ih =>
    by_cases h : ch.channel_id = cid
    · have h1 : (f ch).channel_id = cid := by rw [hid]; exact h
      have h2 : ¬ (f ch).channel_id = cid' := by rw [h1]; exact fun hc => hne hc.symm
      have h3 : ¬ ch.channel_id = cid' := by rw [h]; exact fun hc => hne hc.symm
      simp [updateChannel, findChannel, h, h2, h3, hne.symm]
    · simp [updateChannel, findChannel, h, ih]

lemma findChannel_remove_ne (chans : List LogicalChannel) (cid cid' : Nat)
    (hne : cid' ≠ cid) :
    findChannel (remove_channel_if_not_associated_and_empty_pq chans cid) cid'
      = findChannel chans cid' := by
  induction chans with
  | nil => rfl
  | cons ch rest ih =>
    by_cases h : ch.channel_id = cid
    · have h3 : ¬ ch.channel_id = cid' := by rw [h]; exact fun hc => hne hc.symm
      by_cases hc : ch.association = none ∧ ch.packet_queue = []
      · simp [remove_channel_if_not_associated_and_empty_pq, findChannel, h, hc, h3, hne.symm]
      · simp [remove_channel_if_not_associated_and_empty_pq, findChannel, h, hc, h3, hne.symm]
    · by_cases h' : ch.channel_id = cid'
      · simp [remove_channel_if_not_associated_and_empty_pq, findChannel, h, h', hne]
      · simp [remove_channel_if_not_associated_and_empty_pq, findChannel, h, h', ih]

lemma totalPackets_nil : totalPackets [] = 0 := rfl

lemma totalPackets_cons (ch : LogicalChannel) (rest : List LogicalChannel) :
    totalPackets (ch :: rest) = ch.packet_queue.length + totalPackets rest := by
  simp [totalPackets]

lemma totalPackets_updateChannel_le (chans : List LogicalChannel) (cid : Nat)
    (f : LogicalChannel → LogicalChannel)
    (hle : ∀ c, ((f c).packet_queue).length ≤ c.packet_queue.length) :
    totalPackets (updateChannel chans cid f) ≤ totalPackets chans := by
  induction chans with
  | nil => exact Nat.le_refl _
  | cons ch rest ih =>
    by_cases h : ch.channel_id = cid
    · simp only [updateChannel, h, if_pos, totalPackets_cons]
      exact Nat.add_le_add (hle ch) (Nat.le_refl _)
    · simp only [updateChannel, h, if_neg, not_false_iff, totalPackets_cons]
      exact Nat.add_le_add (Nat.le_refl _) ih

lemma totalPackets_updateChannel_lt (chans : List LogicalChannel) (cid : Nat)
    (f : LogicalChannel → LogicalChannel) (ch : LogicalChannel)
    (hfind : findChannel chans cid = some ch)
    (hlt : ((f ch).packet_queue).length < ch.packet_queue.length) :
    totalPackets (updateChannel chans cid f) < totalPackets chans := by
  induction chans with
  | nil => simp [findChannel] at hfind
  | cons ch0 rest ih =>
    by_cases h : ch0.channel_id = cid
    · have : ch0 = ch := by
        simp [findChannel, h] at hfind; exact hfind
      subst this
      simp only [updateChannel, h, if_pos, totalPackets_cons]
      exact Nat.add_lt_add_right hlt _
    · have hfind' : findChannel rest cid = some ch := by
        simpa [findChannel, h] using hfind
      simp only [updateChannel, h, if_neg, not_false_iff, totalPackets_cons]
      exact Nat.add_lt_add_left (ih hfind') _

lemma totalPackets_remove_le (chans : List LogicalChannel) (cid : Nat) :
    totalPackets (remove_channel_if_not_associated_and_empty_pq chans cid)
      ≤ totalPackets chans := by
  induction chans with
  | nil => exact Nat.le_refl _
  | cons ch rest ih =>
    by_cases h : ch.channel_id = cid
    · by_cases hc : ch.association = none ∧ ch.packet_queue = []
      · simp only [remove_channel_if_not_associated_and_empty_pq, h, hc, if_pos,
          totalPackets_cons]
        exact Nat.le_add_left _ _
      · simp only [remove_channel_if_not_associated_and_empty_pq, h, hc, if_pos, if_neg,
          not_false_iff]
        exact Nat.le_refl _
    · simp only [remove_channel_if_not_associated_and_empty_pq, h, if_neg, not_false_iff,
        totalPackets_cons]
      exact Nat.add_le_add (Nat.le_refl _) ih

lemma channelHasPackets_of_find (chans : List LogicalChannel) (cid : Nat)
    (ch : LogicalChannel) (hfind : findChannel chans cid = some ch)
    (hpq : ch.packet_queue ≠ []) : channelHasPackets chans cid = true := by
  unfold channelHasPackets
  rw [hfind]
  simpa using hpq

lemma find_of_channelHasPackets (chans : List LogicalChannel) (cid : Nat)
    (h : channelHasPackets chans cid = true) :
    ∃ ch, findChannel chans cid = some ch ∧ ch.packet_queue ≠ [] := by
  unfold channelHasPackets at h
  cases hf : findChannel chans cid with
  | none => rw [hf] at h; cases h
  | some ch =>
    rw [hf] at h
    exact ⟨ch, rfl, by simpa using h⟩

lemma channelHasPackets_congr (chans chans' : List LogicalChannel) (cid : Nat)
    (h : findChannel chans' cid = findChannel chans cid) :
    channelHasPackets chans' cid = channelHasPackets chans cid := by
  unfold channelHasPackets
  rw [h]

lemma frame_length (cid : Nat) (pb : PacketBuffer) :
    (frame cid pb).length = 3 + pb.data.length := by
  simp [frame]
  omega

/-! Step lemmas for the flush loop. -/

lemma flushLoop_zero (sq : List Nat) (chans : List LogicalChannel) (left : Nat)
    (out : List Nat) : flushLoop 0 sq chans left out = (out, sq, chans) := rfl

lemma flushLoop_nil (fuel : Nat) (chans : List LogicalChannel) (left : Nat)
    (out : List Nat) : flushLoop (fuel + 1) [] chans left out = (out, [], chans) := rfl

lemma flushLoop_cons_none (fuel cid : Nat) (rest : List Nat)
    (chans : List LogicalChannel) (left : Nat) (out : List Nat)
    (hfind : findChannel chans cid = none) :
    flushLoop (fuel + 1) (cid :: rest) chans left out = (out, cid :: rest, chans) := by
  simp [flushLoop, hfind]

lemma flushLoop_cons_emptyq (fuel cid : Nat) (rest : List Nat)
    (chans : List LogicalChannel) (left : Nat) (out : List Nat) (ch : LogicalChannel)
    (hfind : findChannel chans cid = some ch) (hpq : ch.packet_queue = []) :
    flushLoop (fuel + 1) (cid :: rest) chans left out = (out, cid :: rest, chans) := by
  simp [flushLoop, hfind, hpq]

lemma flushLoop_cons_nofit (fuel cid : Nat) (rest : List Nat)
    (chans : List LogicalChannel) (left : Nat) (out : List Nat) (ch : LogicalChannel)
    (pb : PacketBuffer) (tl : List PacketBuffer)
    (hfind : findChannel chans cid = some ch) (hpq : ch.packet_queue = pb :: tl)
    (hlt : left < 3 + pb.data.length) :
    flushLoop (fuel + 1) (cid :: rest) chans left out = (out, cid :: rest, chans) := by
  simp [flushLoop, hfind, hpq, hlt]

lemma flushLoop_cons_fit (fuel cid : Nat) (rest : List Nat)
    (chans : List LogicalChannel) (left : Nat) (out : List Nat) (ch : LogicalChannel)
    (pb : PacketBuffer) (tl : List PacketBuffer)
    (hfind : findChannel chans cid = some ch) (hpq : ch.packet_queue = pb :: tl)
    (hge : ¬ left < 3 + pb.data.length) :
    flushLoop (fuel + 1) (cid :: rest) chans left out =
      flushLoop fuel
        (if tl = [] then rest else rest ++ [cid])
        (if tl = []
         then remove_channel_if_not_associated_and_empty_pq (popFrontPacket chans cid) cid
         else popFrontPacket chans cid)
        (left - (3 + pb.data.length))
        (out ++ frame cid pb) := by
  simp [flushLoop, hfind, hpq, hge]

/-- Combined specification of the flush loop: the serialized output is
the previous output followed by a concatenation of whole frames, its
growth is bounded by the available room, the send-queue invariant is
preserved, and the loop stops either with an empty send queue or at a
front packet whose framed size exceeds the remaining room. -/
lemma flushLoop_spec (fuel : Nat) :
    ∀ (sq : List Nat) (chans : List LogicalChannel) (left : Nat) (out : List Nat),
    totalPackets chans < fuel →
    SendQueueInv sq chans →
    (∃ ws : List (Nat × PacketBuffer),
      (flushLoop fuel sq chans left out).1
        = out ++ (ws.map (fun x => frame x.1 x.2)).flatten) ∧
    out.length ≤ (flushLoop fuel sq chans left out).1.length ∧
    (flushLoop fuel sq chans left out).1.length ≤ out.length + left ∧
    SendQueueInv (flushLoop fuel sq chans left out).2.1
      (flushLoop fuel sq chans left out).2.2 ∧
    ((flushLoop fuel sq chans left out).2.1 = [] ∨
      ∃ cid rest ch pb tl,
        (flushLoop fuel sq chans left out).2.1 = cid :: rest ∧
        findChannel (flushLoop fuel sq chans left out).2.2 cid = some ch ∧
        ch.packet_queue = pb :: tl ∧
        left - ((flushLoop fuel sq chans left out).1.length - out.length)
          < 3 + pb.data.length) := by
  induction fuel with
  | zero =>
    intro sq chans left out hfuel _
    exact (Nat.not_lt_zero _ hfuel).elim
  | succ fuel ih =>
    intro sq chans left out hfuel hinv
    cases sq with
    | nil =>
      rw [flushLoop_nil]
      exact ⟨⟨[], by simp⟩, Nat.le_refl _, Nat.le_add_right _ _,
        ⟨List.nodup_nil, fun cid h => absurd h (List.not_mem_nil cid)⟩, Or.inl rfl⟩
    | cons cid rest =>
      have hhp := hinv.2 cid (List.mem_cons_self cid rest)
      obtain ⟨ch, hfind, hpqne⟩ := find_of_channelHasPackets chans cid hhp
      cases hpq : ch.packet_queue with
      | nil => exact absurd hpq hpqne
      | cons pb tl =>
        by_cases hlt : left < 3 + pb.data.length
        · rw [flushLoop_cons_nofit fuel cid rest chans left out ch pb tl hfind hpq hlt]
          refine ⟨⟨[], by simp⟩, Nat.le_refl _, Nat.le_add_right _ _, hinv, Or.inr ?_⟩
          exact ⟨cid, rest, ch, pb, tl, rfl, hfind, hpq, by simpa using hlt⟩
        · rw [flushLoop_cons_fit fuel cid rest chans left out ch pb tl hfind hpq hlt]
          have hdec : totalPackets (popFrontPacket chans cid) < totalPackets chans := by
            apply totalPackets_updateChannel_lt chans cid _ ch hfind
            simp [hpq]
          have hfuel2 :
              totalPackets (if tl = []
                then remove_channel_if_not_associated_and_empty_pq (popFrontPacket chans cid) cid
                else popFrontPacket chans cid) < fuel := by
            by_cases htl : tl = []
            · simp only [htl, if_pos]
              have := totalPackets_remove_le (popFrontPacket chans cid) cid
              omega
            · simp only [htl, if_neg, not_false_iff]
              omega
          have hcid_nin : cid ∉ rest := (List.nodup_cons.mp hinv.1).1
          have hrest_nd : rest.Nodup := (List.nodup_cons.mp hinv.1).2
          have hinv2 : SendQueueInv
              (if tl = [] then rest else rest ++ [cid])
              (if tl = []
                then remove_channel_if_not_associated_and_empty_pq (popFrontPacket chans cid) cid
                else popFrontPacket chans cid) := by
            constructor
            · by_cases htl : tl = []
              · simpa [htl] using hrest_nd
              · simp only [htl, if_neg, not_false_iff]
                rw [List.nodup_append]
                exact ⟨hrest_nd, List.nodup_singleton _,
                  fun x hx hy => hcid_nin (List.mem_singleton.mp hy ▸ hx)⟩
            · intro cid' hc'
              by_cases htl : tl = []
              · rw [if_pos htl] at hc'
                have hne : cid' ≠ cid := fun he => hcid_nin (he ▸ hc')
                have e1 : findChannel
                    (if tl = []
                      then remove_channel_if_not_associated_and_empty_pq
                        (popFrontPacket chans cid) cid
                      else popFrontPacket chans cid) cid'
                    = findChannel chans cid' := by
                  rw [if_pos htl, findChannel_remove_ne _ _ _ hne]
                  exact findChannel_updateChannel_ne _ _ _ _ (fun c => rfl) hne
                rw [channelHasPackets_congr _ _ _ e1]
                exact hinv.2 cid' (List.mem_cons_of_mem _ hc')
              · rw [if_neg htl] at hc'
                rcases List.mem_append.mp hc' with hmem' | hmem'
                · have hne : cid' ≠ cid := fun he => hcid_nin (he ▸ hmem')
                  have e1 : findChannel
                      (if tl = []
                        then remove_channel_if_not_associated_and_empty_pq
                          (popFrontPacket chans cid) cid
                        else popFrontPacket chans cid) cid'
                      = findChannel chans cid' := by
                    rw [if_neg htl]
                    exact findChannel_updateChannel_ne _ _ _ _ (fun c => rfl) hne
                  rw [channelHasPackets_congr _ _ _ e1]
                  exact hinv.2 cid' (List.mem_cons_of_mem _ hmem')
                · have heq : cid' = cid := List.mem_singleton.mp hmem'
                  rw [heq]
                  have e1 : findChannel
                      (if tl = []
                        then remove_channel_if_not_associated_and_empty_pq
                          (popFrontPacket chans cid) cid
                        else popFrontPacket chans cid) cid
                      = some { ch with packet_queue := tl } := by
                    rw [if_neg htl]
                    unfold popFrontPacket
                    rw [findChannel_updateChannel_self chans cid
                      (fun c => { c with packet_queue := c.packet_queue.tail })
                      (fun c => rfl), hfind]
                    simp [hpq]
                  exact channelHasPackets_of_find _ _ _ e1 (by simpa using htl)
          have H := ih (if tl = [] then rest else rest ++ [cid])
            (if tl = []
              then remove_channel_if_not_associated_and_empty_pq (popFrontPacket chans cid) cid
              else popFrontPacket chans cid)
            (left - (3 + pb.data.length)) (out ++ frame cid pb) hfuel2 hinv2
          obtain ⟨⟨ws, hws⟩, hlb, hub, hinvr, hnf⟩ := H
          have hfl : (out ++ frame cid pb).length = out.length + (3 + pb.data.length) := by
            rw [List.length_append, frame_length]
          refine ⟨⟨(cid, pb) :: ws, ?_⟩, ?_, ?_, hinvr, ?_⟩
          · rw [hws]
            simp [List.append_assoc]
          · have : out.length ≤ (out ++ frame cid pb).length := by
              rw [hfl]; omega
            omega
          · omega
          · rcases hnf with h | ⟨cid2, rest2, ch2, pb2, tl2, e1, e2, e3, e4⟩
            · exact Or.inl h
            · exact Or.inr ⟨cid2, rest2, ch2, pb2, tl2, e1, e2, e3, by omega⟩

lemma flush_send_queue_out (tail head : Nat) (sq : List Nat) (chans : List LogicalChannel) :
    (flush_send_queue tail head sq chans).out
      = (flushLoop (totalPackets chans + 1) sq chans (255 - ringLen tail head) []).1 := by
  unfold flush_send_queue
  by_cases h :
      (flushLoop (totalPackets chans + 1) sq chans (255 - ringLen tail head) []).1.length = 0 <;>
    simp [h]

lemma flush_send_queue_sq (tail head : Nat) (sq : List Nat) (chans : List LogicalChannel) :
    (flush_send_queue tail head sq chans).send_queue
      = (flushLoop (totalPackets chans + 1) sq chans (255 - ringLen tail head) []).2.1 := by
  unfold flush_send_queue
  by_cases h :
      (flushLoop (totalPackets chans + 1) sq chans (255 - ringLen tail head) []).1.length = 0 <;>
    simp [h]

lemma flush_send_queue_chans (tail head : Nat) (sq : List Nat) (chans : List LogicalChannel) :
    (flush_send_queue tail head sq chans).channels
      = (flushLoop (totalPackets chans + 1) sq chans (255 - ringLen tail head) []).2.2 := by
  unfold flush_send_queue
  by_cases h :
      (flushLoop (totalPackets chans + 1) sq chans (255 - ringLen tail head) []).1.length = 0 <;>
    simp [h]

lemma flush_send_queue_r2a_tail (tail head : Nat) (sq : List Nat) (chans : List LogicalChannel) :
    (flush_send_queue tail head sq chans).r2a_tail
      = (if (flushLoop (totalPackets chans + 1) sq chans (255 - ringLen tail head) []).1.length = 0
         then tail
         else flush_tail_after_write tail
           (flushLoop (totalPackets chans + 1) sq chans (255 - ringLen tail head) []).1.length) := by
  unfold flush_send_queue
  by_cases h :
      (flushLoop (totalPackets chans + 1) sq chans (255 - ringLen tail head) []).1.length = 0 <;>
    simp [h]

lemma ringLen_lt (tail head : Nat) : ringLen tail head < 256 := by
  unfold ringLen
  omega

lemma ringLen_flush_tail (tail head pos : Nat) (htail : tail < 256)
    (hle : pos ≤ 255 - ringLen tail head) :
    ringLen (flush_tail_after_write tail pos) head = ringLen tail head + pos := by
  unfold ringLen at hle ⊢
  unfold flush_tail_after_write
  by_cases hw : 256 - tail < pos
  · rw [if_pos hw]
    omega
  · rw [if_neg hw]
    omega

/-- C1.  For every daemon state satisfying the send-queue invariant (and
status bytes in range), flush_send_queue serializes at most
`255 - ((R2A_TAIL - R2A_HEAD) & 0xFF)` bytes into the R2A ring, the new
ring length is exactly the old length plus the bytes written and stays
at most 255, the output is a concatenation of whole packet frames (no
packet is split across flushes), and the loop stops either with an empty
send queue or at a first front packet whose framed size `3 + payload`
exceeds the remaining room. -/
theorem c1_flush_send_queue_bounds (tail head : Nat) (sq : List Nat)
    (chans : List LogicalChannel)
    (htail : tail < 256) (hhead : head < 256) (hinv : SendQueueInv sq chans) :
    (flush_send_queue tail head sq chans).out.length ≤ 255 - ringLen tail head ∧
    ringLen (flush_send_queue tail head sq chans).r2a_tail head
      = ringLen tail head + (flush_send_queue tail head sq chans).out.length ∧
    ringLen (flush_send_queue tail head sq chans).r2a_tail head ≤ 255 ∧
    (∃ ws : List (Nat × PacketBuffer),
      (flush_send_queue tail head sq chans).out
        = (ws.map (fun x => frame x.1 x.2)).flatten) ∧
    ((flush_send_queue tail head sq chans).send_queue = [] ∨
      ∃ cid rest ch pb tl,
        (flush_send_queue tail head sq chans).send_queue = cid :: rest ∧
        findChannel (flush_send_queue tail head sq chans).channels cid = some ch ∧
        ch.packet_queue = pb :: tl ∧
        255 - ringLen tail head - (flush_send_queue tail head sq chans).out.length
          < 3 + pb.data.length) := by
  have H := flushLoop_spec (totalPackets chans + 1) sq chans (255 - ringLen tail head) []
    (Nat.lt_succ_self _) hinv
  obtain ⟨⟨ws, hws⟩, _, hub, _, hnf⟩ := H
  rw [flush_send_queue_out, flush_send_queue_sq, flush_send_queue_chans,
    flush_send_queue_r2a_tail]
  simp only [List.length_nil, Nat.zero_add] at hub
  set pos := (flushLoop (totalPackets chans + 1) sq chans (255 - ringLen tail head) []).1.length
    with hposdef
  have hlen2 : ringLen (if pos = 0 then tail
      else flush_tail_after_write tail pos) head = ringLen tail head + pos := by
    by_cases hpos : pos = 0
    · rw [if_pos hpos, hpos]
      omega
    · rw [if_neg hpos]
      exact ringLen_flush_tail tail head pos htail hub
  refine ⟨hub, hlen2, ?_, ⟨ws, by simpa using hws⟩, ?_⟩
  · rw [hlen2]
    have := ringLen_lt tail head
    omega
  · rcases hnf with h | ⟨cid, rest, ch, pb, tl, e1, e2, e3, e4⟩
    · exact Or.inl h
    · refine Or.inr ⟨cid, rest, ch, pb, tl, e1, e2, e3, ?_⟩
      simpa using e4

/-- Witness for C1 at a concrete empty state. -/
theorem c1_flush_send_queue_bounds_witness :
    (flush_send_queue 0 0 [] []).out.length ≤ 255 - ringLen 0 0 :=
  (c1_flush_send_queue_bounds 0 0 [] [] (by decide) (by decide)
    ⟨List.nodup_nil, fun cid h => absurd h (List.not_mem_nil cid)⟩).1

/-- C9.  If the packet at the front of the send queue's front channel
has a payload of 253 bytes or more, its framed size `3 + payload`
exceeds 255 and hence the available room `255 - len` for every ring
state, so flush_send_queue serializes nothing at all: the output is
empty, the send queue and channel list are untouched, R2A_TAIL is
unchanged and the function returns false. -/
theorem c9_oversized_packet_never_flushed (tail head cid : Nat) (rest : List Nat)
    (chans : List LogicalChannel) (ch : LogicalChannel) (pb : PacketBuffer)
    (tl : List PacketBuffer)
    (hfind : findChannel chans cid = some ch)
    (hpq : ch.packet_queue = pb :: tl)
    (hbig : 253 ≤ pb.data.length) :
    flush_send_queue tail head (cid :: rest) chans
      = ⟨[], cid :: rest, chans, tail, false⟩ := by
  have hlt : 255 - ringLen tail head < 3 + pb.data.length := by
    have := ringLen_lt tail head
    omega
  have hstep := flushLoop_cons_nofit (totalPackets chans) cid rest chans
    (255 - ringLen tail head) [] ch pb tl hfind hpq hlt
  unfold flush_send_queue
  simp only [hstep]
  simp

/-- Witness for C9 at a concrete state with a 253-byte packet queued. -/
theorem c9_oversized_packet_never_flushed_witness :
    flush_send_queue 10 10 [7]
        [⟨7, none, 0, false, false, [⟨PKT_DATA, List.replicate 253 0⟩]⟩]
      = ⟨[], [7], [⟨7, none, 0, false, false, [⟨PKT_DATA, List.replicate 253 0⟩]⟩], 10, false⟩ :=
  c9_oversized_packet_never_flushed 10 10 7 []
    [⟨7, none, 0, false, false, [⟨PKT_DATA, List.replicate 253 0⟩]⟩]
    ⟨7, none, 0, false, false, [⟨PKT_DATA, List.replicate 253 0⟩]⟩
    ⟨PKT_DATA, List.replicate 253 0⟩ [] rfl rfl (List.length_replicate 253 0).ge

/-- C3.  The send-queue invariant — no channel appears in send_queue
more than once, and every channel in send_queue has a non-empty
packet_queue — is preserved by packet enqueueing
(create_and_enqueue_packet), by queue clearing (clear_packet_queue) and
by flushing (flush_send_queue). -/
theorem c3_send_queue_invariant_preserved :
    (∀ (sq : List Nat) (chans : List LogicalChannel) (cid ptype : Nat)
        (data : List Nat) (length : Nat), SendQueueInv sq chans →
      SendQueueInv (create_and_enqueue_packet sq chans cid ptype data length).1
        (create_and_enqueue_packet sq chans cid ptype data length).2) ∧
    (∀ (sq : List Nat) (chans : List LogicalChannel) (cid : Nat), SendQueueInv sq chans →
      SendQueueInv (clear_packet_queue sq chans cid).1 (clear_packet_queue sq chans cid).2) ∧
    (∀ (tail head : Nat) (sq : List Nat) (chans : List LogicalChannel), SendQueueInv sq chans →
      SendQueueInv (flush_send_queue tail head sq chans).send_queue
        (flush_send_queue tail head sq chans).channels) := by
  refine ⟨?_, ?_, ?_⟩
  · intro sq chans cid ptype data length hinv
    unfold create_and_enqueue_packet
    cases hfind : findChannel chans cid with
    | none => exact hinv
    | some ch =>
      simp only
      by_cases hpq : ch.packet_queue = []
      · rw [if_pos hpq]
        have hnin : cid ∉ sq := by
          intro hmem
          obtain ⟨ch', hf', hne'⟩ := find_of_channelHasPackets chans cid (hinv.2 cid hmem)
          rw [hfind] at hf'
          exact hne' (Option.some_injective _ hf' ▸ hpq)
        constructor
        · rw [List.nodup_append]
          exact ⟨hinv.1, List.nodup_singleton _,
            fun x hx hy => hnin (List.mem_singleton.mp hy ▸ hx)⟩
        · intro cid' hmem'
          rcases List.mem_append.mp hmem' with hmem2 | hmem2
          · have hne : cid' ≠ cid := fun he => hnin (he ▸ hmem2)
            have e1 := findChannel_updateChannel_ne chans cid cid'
              (fun c => { c with packet_queue := c.packet_queue
                ++ [⟨ptype % 256, data.take (length % 256)⟩] }) (fun c => rfl) hne
            rw [channelHasPackets_congr _ _ _ e1]
            exact hinv.2 cid' hmem2
          · rw [List.mem_singleton.mp hmem2]
            apply channelHasPackets_of_find _ _
              ({ ch with packet_queue := ch.packet_queue
                  ++ [⟨ptype % 256, data.take (length % 256)⟩] })
            · rw [findChannel_updateChannel_self chans cid
                (fun c => { c with packet_queue := c.packet_queue
                  ++ [⟨ptype % 256, data.take (length % 256)⟩] }) (fun c => rfl), hfind]
              rfl
            · simp
      · rw [if_neg hpq]
        refine ⟨hinv.1, ?_⟩
        intro cid' hmem'
        by_cases hne : cid' = cid
        · rw [hne]
          apply channelHasPackets_of_find _ _
            ({ ch with packet_queue := ch.packet_queue
                ++ [⟨ptype % 256, data.take (length % 256)⟩] })
          · rw [findChannel_updateChannel_self chans cid
              (fun c => { c with packet_queue := c.packet_queue
                ++ [⟨ptype % 256, data.take (length % 256)⟩] }) (fun c => rfl), hfind]
            rfl
          · simp
        · have e1 := findChannel_updateChannel_ne chans cid cid'
            (fun c => { c with packet_queue := c.packet_queue
              ++ [⟨ptype % 256, data.take (length % 256)⟩] }) (fun c => rfl) hne
          rw [channelHasPackets_congr _ _ _ e1]
          exact hinv.2 cid' hmem'
  · intro sq chans cid hinv
    unfold clear_packet_queue
    cases hfind : findChannel chans cid with
    | none => exact hinv
    | some ch =>
      simp only
      by_cases hpq : ch.packet_queue = []
      · rw [if_pos hpq]
        exact hinv
      · rw [if_neg hpq]
        refine ⟨hinv.1.erase cid, ?_⟩
        intro cid' hmem'
        have hmem : cid' ∈ sq := List.mem_of_mem_erase hmem'
        have hne : cid' ≠ cid := by
          intro heq
          rw [heq] at hmem'
          exact hinv.1.not_mem_erase hmem'
        have e1 := findChannel_updateChannel_ne chans cid cid'
          (fun c => { c with packet_queue := ([] : List PacketBuffer) }) (fun c => rfl) hne
        show channelHasPackets
          (updateChannel chans cid (fun c => { c with packet_queue := ([] : List PacketBuffer) }))
          cid' = true
        rw [channelHasPackets_congr _ _ _ e1]
        exact hinv.2 cid' hmem
  · intro tail head sq chans hinv
    have H := flushLoop_spec (totalPackets chans + 1) sq chans (255 - ringLen tail head) []
      (Nat.lt_succ_self _) hinv
    rw [flush_send_queue_sq, flush_send_queue_chans]
    exact H.2.2.2.1

/-- Witness for C3 at a concrete one-channel state. -/
theorem c3_send_queue_invariant_preserved_witness :
    SendQueueInv
      (create_and_enqueue_packet [] [⟨7, none, 0, false, false, []⟩] 7 PKT_EOS [] 0).1
      (create_and_enqueue_packet [] [⟨7, none, 0, false, false, []⟩] 7 PKT_EOS [] 0).2 :=
  c3_send_queue_invariant_preserved.1 [] [⟨7, none, 0, false, false, []⟩] 7 PKT_EOS [] 0
    ⟨List.nodup_nil, fun cid h => absurd h (List.not_mem_nil cid)⟩

lemma close_all_loop_channels (chans : List LogicalChannel) :
    (close_all_loop chans).1 = [] := by
  induction chans with
  | nil => rfl
  | cons ch rest ih => simp [close_all_loop, ih]

/-- C2 counterexample: close_all_logical_channels erases a channel whose
packet_queue is non-empty (here a dissociated channel still holding a
queued PKT_DATA), so it is not true that every operation that erases a
channel record does so only when the packet queue is empty. -/
theorem c2_counterexample :
    (close_all_logical_channels [⟨7, none, 0, false, false, [⟨PKT_DATA, [1]⟩]⟩]).2.1 = [] ∧
    (⟨7, none, 0, false, false, [⟨PKT_DATA, [1]⟩]⟩ : LogicalChannel).packet_queue ≠ [] := by
  decide

/-- C2 (amended).  The per-packet removal path
remove_channel_if_not_associated_and_empty_pq erases a channel only when
its association is None and its packet_queue is empty; but
close_all_logical_channels — run on base-address rediscovery — clears
the send queue and erases every channel unconditionally. -/
theorem c2_amended_channel_erasure :
    (∀ (chans : List LogicalChannel) (cid : Nat) (ch : LogicalChannel),
      ch ∈ chans →
      ch ∉ remove_channel_if_not_associated_and_empty_pq chans cid →
      ch.association = none ∧ ch.packet_queue = []) ∧
    (∀ chans : List LogicalChannel,
      (close_all_logical_channels chans).2.1 = [] ∧
      (close_all_logical_channels chans).1 = []) := by
  constructor
  · intro chans cid ch
    induction chans with
    | nil => intro h _; cases h
    | cons a rest ih =>
      intro hmem hnot
      by_cases h : a.channel_id = cid
      · by_cases hc : a.association = none ∧ a.packet_queue = []
        · rw [show remove_channel_if_not_associated_and_empty_pq (a :: rest) cid = rest by
            simp [remove_channel_if_not_associated_and_empty_pq, h, hc]] at hnot
          rcases List.mem_cons.mp hmem with heq | hmem2
          · rw [heq]; exact hc
          · exact absurd hmem2 hnot
        · rw [show remove_channel_if_not_associated_and_empty_pq (a :: rest) cid = a :: rest by
            simp [remove_channel_if_not_associated_and_empty_pq, h, hc]] at hnot
          exact absurd hmem hnot
      · rw [show remove_channel_if_not_associated_and_empty_pq (a :: rest) cid
            = a :: remove_channel_if_not_associated_and_empty_pq rest cid by
            simp [remove_channel_if_not_associated_and_empty_pq, h]] at hnot
        rcases List.mem_cons.mp hmem with heq | hmem2
        · exact absurd (heq ▸ List.mem_cons_self a _) hnot
        · exact ih hmem2 (fun hin => hnot (List.mem_cons_of_mem _ hin))
  · intro chans
    exact ⟨close_all_loop_channels chans, rfl⟩

/-- Witness for C2 (amended) at a concrete removable channel. -/
theorem c2_amended_channel_erasure_witness :
    (⟨7, none, 0, false, false, []⟩ : LogicalChannel).association = none ∧
    (⟨7, none, 0, false, false, []⟩ : LogicalChannel).packet_queue = [] :=
  c2_amended_channel_erasure.1 [⟨7, none, 0, false, false, []⟩] 7
    ⟨7, none, 0, false, false, []⟩ (List.mem_singleton.mpr rfl) (by decide)

/-- C4 counterexample: with no base address cached but an events value
of 0, handle_a314_irq returns before any rediscovery, contradicting the
claim that rediscovery runs whenever no base address is cached. -/
theorem c4_counterexample :
    (handle_a314_irq_events 0 false 0 [] [] 9 9).rediscovered = false ∧
    (handle_a314_irq_events 0 false 0 [] [] 9 9).have_base_address = false := by
  decide

/-- C4 (amended).  On every IRQ the daemon performs the acknowledging
read of R_EVENTS; rediscovery runs exactly when the events value read is
nonzero AND (R_EVENT_BASE_ADDRESS is set in it or no base address is
cached).  A rediscovery closes all logical channels, and accepts a base
address exactly when the first 20-bit CMEM read has low bit 1 and the
second read matches it, caching the value with the low bit cleared. -/
theorem c4_amended_rediscovery :
    ∀ (events : Nat) (have_base : Bool) (base : Nat) (sq : List Nat)
      (chans : List LogicalChannel) (ba1 ba2 : Nat),
    ((handle_a314_irq_events events have_base base sq chans ba1 ba2).rediscovered = true ↔
      (events ≠ 0 ∧ (events &&& R_EVENT_BASE_ADDRESS ≠ 0 ∨ have_base = false))) ∧
    ((handle_a314_irq_events events have_base base sq chans ba1 ba2).rediscovered = true →
      (handle_a314_irq_events events have_base base sq chans ba1 ba2).channels = [] ∧
      (handle_a314_irq_events events have_base base sq chans ba1 ba2).send_queue = [] ∧
      ((handle_a314_irq_events events have_base base sq chans ba1 ba2).have_base_address = true
        ↔ (ba1 % 2 = 1 ∧ ba1 = ba2)) ∧
      ((handle_a314_irq_events events have_base base sq chans ba1 ba2).have_base_address = true
        → (handle_a314_irq_events events have_base base sq chans ba1 ba2).base_address
            = ba1 - 1 ∧
          (handle_a314_irq_events events have_base base sq chans ba1 ba2).base_address % 2
            = 0)) := by
  intro events have_base base sq chans ba1 ba2
  unfold handle_a314_irq_events
  by_cases h0 : events = 0
  · rw [if_pos h0]
    constructor
    · simp [h0]
    · intro hcontra
      cases hcontra
  · rw [if_neg h0]
    by_cases h1 : events &&& R_EVENT_BASE_ADDRESS ≠ 0 ∨ have_base = false
    · rw [if_pos h1]
      constructor
      · simpa using ⟨h0, h1⟩
      · intro _
        refine ⟨close_all_loop_channels chans, rfl, ?_, ?_⟩
        · show (read_base_address base ba1 ba2).1 = true ↔ (ba1 % 2 = 1 ∧ ba1 = ba2)
          unfold read_base_address
          by_cases hodd : ba1 % 2 = 1
          · by_cases heq2 : ba1 = ba2
            · rw [if_pos hodd, if_pos heq2]
              exact iff_of_true rfl ⟨hodd, heq2⟩
            · rw [if_pos hodd, if_neg heq2]
              simp [heq2]
          · rw [if_neg hodd]
            simp [hodd]
        · intro hhb
          have hhb' : (read_base_address base ba1 ba2).1 = true := hhb
          constructor
          · show (read_base_address base ba1 ba2).2 = ba1 - 1
            unfold read_base_address at hhb' ⊢
            by_cases hodd : ba1 % 2 = 1
            · by_cases heq2 : ba1 = ba2
              · rw [if_pos hodd, if_pos heq2]
              · rw [if_pos hodd, if_neg heq2] at hhb'
                simp at hhb'
            · rw [if_neg hodd] at hhb'
              simp at hhb'
          · show (read_base_address base ba1 ba2).2 % 2 = 0
            unfold read_base_address at hhb' ⊢
            by_cases hodd : ba1 % 2 = 1
            · by_cases heq2 : ba1 = ba2
              · rw [if_pos hodd, if_pos heq2]
                show (ba1 - 1) % 2 = 0
                omega
              · rw [if_pos hodd, if_neg heq2] at hhb'
                simp at hhb'
            · rw [if_neg hodd] at hhb'
              simp at hhb'
    · rw [if_neg h1]
      constructor
      · simp only [Bool.false_eq_true, false_iff]
        intro hcontra
        exact h1 hcontra.2
      · intro hcontra
        cases hcontra

/-- Witness for C4 (amended): an IRQ with the BASE_ADDRESS event bit set
does perform rediscovery. -/
theorem c4_amended_rediscovery_witness :
    (handle_a314_irq_events 4 true 5 [] [] 9 9).rediscovered = true :=
  (c4_amended_rediscovery 4 true 5 [] [] 9 9).1.mpr (by decide)

/-- C5 counterexample: a PKT_EOS on an existing but unassociated channel
does nothing — got_eos_from_ami is not set and no MSG_EOS is emitted,
contradicting the claim that every PKT_EOS on an existing channel sets
the flag and forwards MSG_EOS. -/
theorem c5_counterexample :
    (handle_pkt_eos [⟨7, none, 0, false, false, []⟩] 7).1
        = [⟨7, none, 0, false, false, []⟩] ∧
    (handle_pkt_eos [⟨7, none, 0, false, false, []⟩] 7).2 = [] := by
  decide

/-- C5 (amended).  For every PKT_EOS on an existing channel that is
associated and has not already got EOS from the peer, the daemon sets
got_eos_from_ami, emits exactly one MSG_EOS on the channel's stream, and
dissociates if and only if got_eos_from_client was already set; and once
got_eos_from_ami is set, handle_pkt_data emits no MSG_DATA on that
channel. -/
theorem c5_amended_eos :
    (∀ (chans : List LogicalChannel) (cid : Nat) (ch : LogicalChannel) (c : Nat),
      findChannel chans cid = some ch →
      ch.association = some c →
      ch.got_eos_from_ami = false →
      (handle_pkt_eos chans cid).2 = [⟨c, MSG_EOS, ch.stream_id, []⟩] ∧
      ∃ ch', findChannel (handle_pkt_eos chans cid).1 cid = some ch' ∧
        ch'.got_eos_from_ami = true ∧
        ch'.association = (if ch.got_eos_from_client then none else some c)) ∧
    (∀ (chans : List LogicalChannel) (cid : Nat) (ch : LogicalChannel) (data : List Nat),
      findChannel chans cid = some ch →
      ch.got_eos_from_ami = true →
      handle_pkt_data chans cid data = []) := by
  constructor
  · intro chans cid ch c
    induction chans with
    | nil => intro h; cases h
    | cons a rest ih =>
      intro hfind hassoc heos
      by_cases h : a.channel_id = cid
      · have ha : a = ch := by simpa [findChannel, h] using hfind
        subst ha
        cases hgc : a.got_eos_from_client with
        | false =>
          refine ⟨by simp [handle_pkt_eos, h, hassoc, heos, hgc], ?_⟩
          refine ⟨{ a with got_eos_from_ami := true }, ?_, rfl, by simp [hgc, hassoc]⟩
          simp [handle_pkt_eos, h, hassoc, heos, hgc, findChannel]
        | true =>
          refine ⟨by simp [handle_pkt_eos, h, hassoc, heos, hgc], ?_⟩
          refine ⟨{ a with got_eos_from_ami := true, association := none, stream_id := 0 },
            ?_, rfl, by simp [hgc]⟩
          simp [handle_pkt_eos, h, hassoc, heos, hgc, findChannel]
      · have hstep : handle_pkt_eos (a :: rest) cid
            = (a :: (handle_pkt_eos rest cid).1, (handle_pkt_eos rest cid).2) := by
          simp [handle_pkt_eos, h]
        have hfind' : findChannel rest cid = some ch := by
          simpa [findChannel, h] using hfind
        obtain ⟨hm, ch', hf', he', ha'⟩ := ih hfind' hassoc heos
        rw [hstep]
        refine ⟨hm, ch', ?_, he', ha'⟩
        simpa [findChannel, h] using hf'
  · intro chans cid ch data hfind heos
    unfold handle_pkt_data
    rw [hfind]
    cases hassoc : ch.association with
    | none => simp [hassoc]
    | some c => simp [hassoc, heos]

/-- Witness for C5 (amended): a PKT_EOS on an associated channel with
got_eos_from_client already set emits MSG_EOS. -/
theorem c5_amended_eos_witness :
    (handle_pkt_eos [⟨7, some 1, 5, false, true, []⟩] 7).2 = [⟨1, MSG_EOS, 5, []⟩] :=
  (c5_amended_eos.1 [⟨7, some 1, 5, false, true, []⟩] 7 ⟨7, some 1, 5, false, true, []⟩ 1
    rfl rfl rfl).1

/-- C6 counterexample: when a write in create_and_send_msg fails with
ECONNRESET, the daemon returns without closing the connection (the
source's comment defers the cleanup), contradicting the claim that every
ECONNRESET write failure closes and removes the client. -/
theorem c6_counterexample :
    create_and_send_msg_on_error ECONNRESET = SendAction.dropped := by
  decide

/-- C6 (amended).  In the EPOLLOUT drain path an ECONNRESET write
failure closes and removes the client connection; in the synchronous
send path the message is dropped and the connection kept (cleanup
deferred).  A write failure with any errno other than
EAGAIN/EWOULDBLOCK/ECONNRESET terminates the process in both paths. -/
theorem c6_amended_write_errors :
    handle_epollout_write_error ECONNRESET = DrainAction.close_connection ∧
    create_and_send_msg_on_error ECONNRESET = SendAction.dropped ∧
    (∀ e : Nat, e ≠ EAGAIN → e ≠ EWOULDBLOCK → e ≠ ECONNRESET →
      create_and_send_msg_on_error e = SendAction.fatal_exit ∧
      handle_epollout_write_error e = DrainAction.fatal_exit) := by
  refine ⟨rfl, rfl, ?_⟩
  intro e h1 h2 h3
  have hor : ¬ (e = EAGAIN ∨ e = EWOULDBLOCK) := fun h => h.elim h1 h2
  unfold create_and_send_msg_on_error handle_epollout_write_error
  rw [if_neg hor, if_neg h3, if_neg hor, if_neg h3]
  exact ⟨rfl, rfl⟩

/-- Witness for C6 (amended) at errno EPIPE (32). -/
theorem c6_amended_write_errors_witness :
    create_and_send_msg_on_error 32 = SendAction.fatal_exit ∧
    handle_epollout_write_error 32 = DrainAction.fatal_exit :=
  c6_amended_write_errors.2.2 32 (by decide) (by decide) (by decide)

/-- C7 counterexample: the listening socket is not bound to 127.0.0.1
(2130706433 = 0x7F000001); the source binds INADDR_ANY. -/
theorem c7_counterexample :
    init_server_socket_setup.addr ≠ 2130706433 := by
  decide

/-- C7 (amended).  The daemon's listening socket is a TCP socket
(AF_INET, SOCK_STREAM) bound to INADDR_ANY (0.0.0.0), port 7110, with
listen backlog 16. -/
theorem c7_amended_listener :
    init_server_socket_setup.family = AF_INET ∧
    init_server_socket_setup.socktype = SOCK_STREAM ∧
    init_server_socket_setup.addr = INADDR_ANY ∧
    init_server_socket_setup.port = 7110 ∧
    init_server_socket_setup.backlog = 16 :=
  ⟨rfl, rfl, rfl, rfl, rfl⟩

lemma name_not_mem_of_find_none (services : List RegisteredService) (name : String)
    (hf : services.find? (fun s => s.name == name) = none) :
    name ∉ serviceNames services := by
  intro hm
  obtain ⟨s, hs, hsn⟩ := List.mem_map.mp hm
  have := (List.find?_eq_none.mp hf) s hs
  exact this (by simp [hsn])

lemma serviceNames_append_nodup (services : List RegisteredService) (name : String)
    (cc : Nat) (hnd : (serviceNames services).Nodup)
    (hnin : name ∉ serviceNames services) :
    (serviceNames (services ++ [⟨name, cc⟩])).Nodup := by
  unfold serviceNames at hnd hnin ⊢
  rw [List.map_append, List.nodup_append]
  refine ⟨hnd, by simp, ?_⟩
  intro x hx hy
  have hxy : x = name := by simpa using hy
  exact hnin (hxy ▸ hx)

/-- C8.  Service-registry exclusivity: handle_msg_register_req registers
a new service and replies SUCCESS exactly when the name is not already
present (replying FAIL and leaving the registry unchanged otherwise),
the on-demand launch path of handle_pkt_connect auto-registers a name
only after lookup in the registry has failed, and consequently both
operations preserve uniqueness of registry names. -/
theorem c8_registry_exclusive :
    (∀ (services : List RegisteredService) (cc : Nat) (name : String),
      (serviceNames services).Nodup →
      (serviceNames (handle_msg_register_req services cc name).1).Nodup) ∧
    (∀ (services : List RegisteredService) (cc : Nat) (name : String),
      (services.find? (fun s => s.name == name) = none →
        (handle_msg_register_req services cc name).1 = services ++ [⟨name, cc⟩] ∧
        (handle_msg_register_req services cc name).2
          = [⟨cc, MSG_REGISTER_RES, 0, [MSG_SUCCESS]⟩]) ∧
      ((services.find? (fun s => s.name == name)).isSome →
        (handle_msg_register_req services cc name).1 = services ∧
        (handle_msg_register_req services cc name).2
          = [⟨cc, MSG_REGISTER_RES, 0, [MSG_FAIL]⟩])) ∧
    (∀ (st : ConnectState) (cid : Nat) (name : String) (st' : ConnectState)
        (msgs : List Msg),
      (serviceNames st.services).Nodup →
      handle_pkt_connect st cid name = some (st', msgs) →
      (serviceNames st'.services).Nodup) := by
  refine ⟨?_, ?_, ?_⟩
  · intro services cc name hnd
    unfold handle_msg_register_req
    cases hf : services.find? (fun s => s.name == name) with
    | some s => exact hnd
    | none =>
      exact serviceNames_append_nodup services name cc hnd
        (name_not_mem_of_find_none services name hf)
  · intro services cc name
    constructor
    · intro hnone
      unfold handle_msg_register_req
      rw [hnone]
      exact ⟨rfl, rfl⟩
    · intro hsome
      obtain ⟨s, hsv⟩ := Option.isSome_iff_exists.mp hsome
      unfold handle_msg_register_req
      rw [hsv]
      exact ⟨rfl, rfl⟩
  · intro st cid name st' msgs hnd hconn
    unfold handle_pkt_connect at hconn
    by_cases hex : (findChannel st.channels cid).isSome
    · rw [if_pos hex] at hconn
      cases hconn
    · rw [if_neg hex] at hconn
      cases hf : st.services.find? (fun s => s.name == name) with
      | some srv =>
        simp only [hf] at hconn
        cases hc : st.connections.find? (fun c => c.id = srv.cc) with
        | none =>
          simp [hc] at hconn
        | some cc2 =>
          simp only [hc, Option.some.injEq, Prod.mk.injEq] at hconn
          obtain ⟨h1, _⟩ := hconn
          subst h1
          exact hnd
      | none =>
        simp only [hf] at hconn
        by_cases hod : st.on_demand.contains name = true
        · rw [if_pos hod] at hconn
          simp only [Option.some.injEq, Prod.mk.injEq] at hconn
          obtain ⟨h1, _⟩ := hconn
          subst h1
          exact serviceNames_append_nodup st.services name st.next_fd hnd
            (name_not_mem_of_find_none st.services name hf)
        · rw [if_neg hod] at hconn
          simp only [Option.some.injEq, Prod.mk.injEq] at hconn
          obtain ⟨h1, _⟩ := hconn
          subst h1
          exact hnd

/-- Witness for C8: registering a fresh name keeps the registry
duplicate-free. -/
theorem c8_registry_exclusive_witness :
    (serviceNames (handle_msg_register_req [] 3 "echo").1).Nodup :=
  c8_registry_exclusive.1 [] 3 "echo" List.nodup_nil

lemma handle_msg_data_assoc (sq : List Nat) (chans : List LogicalChannel)
    (cc sid hlen : Nat) (payload : List Nat) (ch : LogicalChannel)
    (hget : get_associated_channel_by_stream_id chans cc sid = some ch) :
    handle_msg_data sq chans cc sid hlen payload
      = create_and_enqueue_packet sq chans ch.channel_id PKT_DATA payload hlen := by
  unfold handle_msg_data
  rw [hget]

lemma create_and_enqueue_packet_found (sq : List Nat) (chans : List LogicalChannel)
    (cid ptype : Nat) (data : List Nat) (length : Nat) (ch : LogicalChannel)
    (hfind : findChannel chans cid = some ch) :
    create_and_enqueue_packet sq chans cid ptype data length
      = (if ch.packet_queue = [] then sq ++ [cid] else sq,
         updateChannel chans cid (fun c => { c with packet_queue := c.packet_queue
           ++ [⟨ptype % 256, data.take (length % 256)⟩] })) := by
  unfold create_and_enqueue_packet
  rw [hfind]

/-- C10.  For every MSG_DATA on an associated stream, handle_msg_data
enqueues a PKT_DATA whose payload is the first `length mod 256` bytes of
the client payload, because create_and_enqueue_packet takes the length
as a uint8_t: its length equals the header's 32-bit length field reduced
mod 256, and payloads longer than 255 bytes are silently truncated. -/
theorem c10_msg_data_truncation (sq : List Nat) (chans : List LogicalChannel)
    (cc sid hlen : Nat) (payload : List Nat) (ch : LogicalChannel)
    (hget : get_associated_channel_by_stream_id chans cc sid = some ch)
    (hfind : findChannel chans ch.channel_id = some ch)
    (hplen : payload.length = hlen) :
    ∃ ch', findChannel (handle_msg_data sq chans cc sid hlen payload).2 ch.channel_id
        = some ch' ∧
      ch'.packet_queue
        = ch.packet_queue ++ [⟨PKT_DATA % 256, payload.take (hlen % 256)⟩] ∧
      (payload.take (hlen % 256)).length = hlen % 256 ∧
      (255 < hlen → hlen % 256 < payload.length) := by
  rw [handle_msg_data_assoc sq chans cc sid hlen payload ch hget,
    create_and_enqueue_packet_found sq chans ch.channel_id PKT_DATA payload hlen ch hfind]
  refine ⟨{ ch with packet_queue := ch.packet_queue
      ++ [⟨PKT_DATA % 256, payload.take (hlen % 256)⟩] }, ?_, rfl, ?_, ?_⟩
  · show findChannel (updateChannel chans ch.channel_id
      (fun c => { c with packet_queue := c.packet_queue
        ++ [⟨PKT_DATA % 256, payload.take (hlen % 256)⟩] })) ch.channel_id = some _
    rw [findChannel_updateChannel_self chans ch.channel_id
      (fun c => { c with packet_queue := c.packet_queue
        ++ [⟨PKT_DATA % 256, payload.take (hlen % 256)⟩] }) (fun c => rfl), hfind]
    rfl
  · rw [List.length_take]
    omega
  · intro h
    omega

/-- Witness for C10 at a concrete 3-byte message. -/
theorem c10_msg_data_truncation_witness :
    ∃ ch', findChannel
        (handle_msg_data [] [⟨7, some 2, 5, false, false, []⟩] 2 5 3 [1, 2, 3]).2
        (⟨7, some 2, 5, false, false, []⟩ : LogicalChannel).channel_id = some ch' ∧
      ch'.packet_queue
        = (⟨7, some 2, 5, false, false, []⟩ : LogicalChannel).packet_queue
          ++ [⟨PKT_DATA % 256, ([1, 2, 3] : List Nat).take (3 % 256)⟩] ∧
      (([1, 2, 3] : List Nat).take (3 % 256)).length = 3 % 256 ∧
      (255 < 3 → 3 % 256 < ([1, 2, 3] : List Nat).length) :=
  c10_msg_data_truncation [] [⟨7, some 2, 5, false, false, []⟩] 2 5 3 [1, 2, 3]
    ⟨7, some 2, 5, false, false, []⟩ rfl rfl rfl

end A314
